import Mathlib

/-!
Verification of the after-school-classes backend (`src/server.js`).

The service is a four-endpoint CRUD layer over a document database:
`GET /lessons`, `POST /orders`, `PUT /lessons/:id`, `GET /search?q=`.
This file gives a shallow embedding of the data model and of the four
request handlers, translated from `src/server.js`, and proves the spec's
claims about them.

Modelling conventions:
* MongoDB `ObjectId` values are modelled by their string representation;
  `new ObjectId(s)` applied to a valid id string is the identity, and
  document lookup compares these strings for equality.
* The database is a pair of lists (the `lessons` and `orders` collections);
  `findOne` returns the first list element matching the filter and
  `updateOne` updates the first matching element, as in MongoDB.
* JavaScript request bodies are modelled on the fragment the endpoints
  consume: string fields and arrays of strings.  A missing field and a
  falsy present value take the same branch in the code (`!name`), and the
  embedding records strings exactly, so truthiness of a string is `s ≠ ""`.
* `new Date()` is modelled by a `now : Nat` timestamp passed to the handler,
  and the generated `insertedId` by a `newId : String` parameter.
-/

namespace AfterSchool

/-- A lesson document, as seeded by `initializeSampleData` and stored in the
`lessons` collection: `_id`, `subject`, `location`, `price`, `spaces`,
`image`. -/
structure Lesson where
  _id : String
  subject : String
  location : String
  price : Int
  spaces : Int
  image : String
deriving DecidableEq, Repr

/-- An order document as built by `app.post('/orders')`: customer `name` and
`phone`, the ordered `lessonIds`, the denormalized `lessonNames`, and the
`orderDate` timestamp. -/
structure Order where
  name : String
  phone : String
  lessonIds : List String
  lessonNames : List String
  orderDate : Nat
deriving DecidableEq, Repr

/-- The two collections of `after_school_db`. -/
structure DB where
  lessons : List Lesson
  orders : List Order
deriving DecidableEq, Repr

/-- Model of `findOne` on the `lessons` collection with filter on `_id`. -/
def findLesson (db : DB) (lessonId : String) : Option Lesson :=
  db.lessons.find? (fun l => l._id == lessonId)

/-- A hexadecimal digit, as accepted inside an ObjectId hex string. -/
def isHexDigit (c : Char) : Bool :=
  c.isDigit || ('a' ≤ c && c ≤ 'f') || ('A' ≤ c && c ≤ 'F')

/-- Model of `ObjectId.isValid` on strings: a 24-character hex string, or any
12-character string (interpreted as 12 raw bytes by the driver). -/
def isValidObjectId (s : String) : Bool :=
  (s.length == 24 && s.toList.all isHexDigit) || s.length == 12

/-- JavaScript `\s` (whitespace class) on the characters the service
manipulates: space, tab, line feed, vertical tab, form feed, carriage
return, and the unicode line/paragraph separators. -/
def jsWhitespace (c : Char) : Bool :=
  c == ' ' || c == '\t' || c == '\n' || c == '\x0b' || c == '\x0c' ||
  c == '\r' || c == Char.ofNat 0x00a0 || c == Char.ofNat 0x2028 || c == Char.ofNat 0x2029

/-- A character accepted by `nameRegex = /^[A-Za-z\s]+$/`. -/
def isNameChar (c : Char) : Bool :=
  c.isAlpha || jsWhitespace c

/-- Model of `nameRegex.test name`: the whole string is one or more letters or
whitespace characters. -/
def nameRegexTest (s : String) : Bool :=
  s ≠ "" && s.toList.all isNameChar

/-- Model of `phoneRegex.test phone` with `phoneRegex = /^\d+$/`: the whole string is
one or more ASCII digits. -/
def phoneRegexTest (s : String) : Bool :=
  s ≠ "" && s.toList.all Char.isDigit

/-- The `lessonIds` field of a `POST /orders` body: absent (or a falsy
value), a truthy non-array value, or an array of id strings. -/
inductive IdsField where
  | absent
  | notArray
  | arr (ids : List String)
deriving DecidableEq, Repr

/-- A `POST /orders` request body over the string fragment of JSON:
`none` models a missing (or `undefined`) field. -/
structure OrderBody where
  name : Option String
  phone : Option String
  lessonIds : IdsField
deriving DecidableEq, Repr

/-- Truthiness of an optional string field: present and non-empty. -/
def truthyStr : Option String → Bool
  | none => false
  | some s => s ≠ ""

/-- Truthiness of the `lessonIds` field (`!lessonIds`): arrays, including
the empty array, and truthy non-arrays pass. -/
def idsTruthy : IdsField → Bool
  | .absent => false
  | _ => true

/-- Model of `Array.isArray lessonIds`. -/
def idsIsArray : IdsField → Bool
  | .arr _ => true
  | _ => false

/-- A booked-lesson summary as returned in the 201 response: `subject`,
`location`, `price`. -/
structure LessonSummary where
  subject : String
  location : String
  price : Int
deriving DecidableEq, Repr

/-- The response of `POST /orders` (the 500 branch needs a database failure
and is outside the model). -/
inductive OrdersResp where
  | badRequest (msg : String)
  | notFound (msg : String)
  | created (orderId : String) (lessons : List LessonSummary)
deriving DecidableEq, Repr

/-- HTTP status of a `POST /orders` response. -/
def ordersStatus : OrdersResp → Nat
  | .badRequest _ => 400
  | .notFound _ => 404
  | .created _ _ => 201

/-- The per-identifier validation loop of `app.post('/orders')`: for each id
in order, reject a malformed id with 400, a missing lesson with 404, and a
full lesson (`lesson.spaces < 1`) with 400; otherwise push the lesson onto
`validLessons`. -/
def collectLessons (db : DB) : List String → Except OrdersResp (List Lesson)
  | [] => .ok []
  | lessonId :: rest =>
    if !isValidObjectId lessonId then
      .error (.badRequest ("Invalid lesson ID format: " ++ lessonId))
    else
      match findLesson db lessonId with
      | none => .error (.notFound ("Lesson not found with ID: " ++ lessonId))
      | some lesson =>
        if lesson.spaces < 1 then
          .error (.badRequest ("No spaces available for lesson: " ++ lesson.subject))
        else
          match collectLessons db rest with
          | .error e => .error e
          | .ok ls => .ok (lesson :: ls)

/-- Handler `app.post('/orders')`: validates the body, resolves every lesson id, and
on success inserts one order document and returns 201 with the new id and the
booked-lesson summaries.  `now` is the `new Date()` timestamp and `newId` the
generated `insertedId`. -/
def postOrders (db : DB) (b : OrderBody) (now : Nat) (newId : String) :
    OrdersResp × DB :=
  if !truthyStr b.name || !truthyStr b.phone ||
     !idsTruthy b.lessonIds || !idsIsArray b.lessonIds then
    (.badRequest "Name, phone, and lessonIds array are required", db)
  else
    match b.lessonIds with
    | .arr ids =>
      if ids.length == 0 then
        (.badRequest "At least one lesson must be selected", db)
      else
        let name := b.name.getD ""
        let phone := b.phone.getD ""
        if !nameRegexTest name then
          (.badRequest "Name must contain letters only", db)
        else if !phoneRegexTest phone then
          (.badRequest "Phone must contain numbers only", db)
        else
          match collectLessons db ids with
          | .error e => (e, db)
          | .ok validLessons =>
            let order : Order :=
              { name := name, phone := phone, lessonIds := ids,
                lessonNames := validLessons.map (fun l => l.subject),
                orderDate := now }
            (.created newId
               (validLessons.map (fun l =>
                 { subject := l.subject, location := l.location,
                   price := l.price })),
             { db with orders := db.orders ++ [order] })
    | _ => (.badRequest "Name, phone, and lessonIds array are required", db)

/-! ### `GET /lessons` -/

/-- Handler `app.get('/lessons')`: returns every lesson document unmodified. -/
def getLessons (db : DB) : List Lesson :=
  db.lessons

/-! ### `PUT /lessons/:id` -/

/-- A `PUT /lessons/:id` request body: any subset of `spaces`, `subject`,
`location`, `price` may be present (`none` models `undefined`). -/
structure PutBody where
  spaces : Option Int
  subject : Option String
  location : Option String
  price : Option Int
deriving DecidableEq, Repr

/-- Check `Object.keys(updateFields).length === 0`: no field of the body is
present. -/
def putBodyEmpty (b : PutBody) : Bool :=
  b.spaces.isNone && b.subject.isNone && b.location.isNone && b.price.isNone

/-- The effect of `$set updateFields` on one lesson: each present field is
overwritten, every other field is kept. -/
def applySet (b : PutBody) (l : Lesson) : Lesson :=
  { l with
    spaces := b.spaces.getD l.spaces,
    subject := b.subject.getD l.subject,
    location := b.location.getD l.location,
    price := b.price.getD l.price }

/-- Model of `updateOne` on a list of documents: applies `f` to the first element
satisfying `p`, leaving every other element unchanged. -/
def updateFirst (p : Lesson → Bool) (f : Lesson → Lesson) :
    List Lesson → List Lesson
  | [] => []
  | l :: ls => if p l then f l :: ls else l :: updateFirst p f ls

/-- The response of `PUT /lessons/:id` (the 500 branch needs a database
failure and is outside the model).  The 200 response echoes
`updatedFields`. -/
inductive PutResp where
  | badRequest (msg : String)
  | notFound (msg : String)
  | ok (updatedFields : PutBody)
deriving DecidableEq, Repr

/-- HTTP status of a `PUT /lessons/:id` response. -/
def putStatus : PutResp → Nat
  | .badRequest _ => 400
  | .notFound _ => 404
  | .ok _ => 200

/-- Handler `app.put('/lessons/:id')`: validates the id, rejects an empty update,
runs `updateOne` with `$set` of the present fields, and reports 404 when no
document matched. -/
def putLesson (db : DB) (lessonId : String) (b : PutBody) : PutResp × DB :=
  if !isValidObjectId lessonId then
    (.badRequest "Invalid lesson ID", db)
  else if putBodyEmpty b then
    (.badRequest "No fields to update", db)
  else if (findLesson db lessonId).isNone then
    (.notFound "Lesson not found", db)
  else
    (.ok b,
     { db with
       lessons := updateFirst (fun l => l._id == lessonId) (applySet b)
                    db.lessons })

/-! ### `GET /search`

The search handler builds `new RegExp(q, 'i')` from the raw query.  The
embedding models this regular expression on the fragment of patterns built
from literal characters and the metacharacter `.`; a query containing any
other metacharacter (`^ $ \ * + ? ( ) [ ] | { }`) is outside the model and
the handler returns `none` for it. -/

/-- One element of a modelled search pattern: a literal character or the
metacharacter `.`. -/
inductive Pat where
  | lit (c : Char)
  | dot
deriving DecidableEq, Repr

/-- A JavaScript line terminator (not matched by `.`). -/
def isLineTerminator (c : Char) : Bool :=
  c == '\n' || c == '\r' || c == Char.ofNat 0x2028 || c == Char.ofNat 0x2029

/-- Whether one pattern element matches one subject character, under the
`i` flag (case-insensitive comparison of literals). -/
def patCharMatch : Pat → Char → Bool
  | .lit a, c => a.toLower == c.toLower
  | .dot, c => !isLineTerminator c

/-- Whether the pattern matches a prefix of the character list. -/
def patMatchAt : List Pat → List Char → Bool
  | [], _ => true
  | _ :: _, [] => false
  | p :: ps, c :: cs => patCharMatch p c && patMatchAt ps cs

/-- Model of `regex.test s` for the modelled fragment: the pattern matches starting
at some position of the subject. -/
def regexTest (ps : List Pat) : List Char → Bool
  | [] => patMatchAt ps []
  | c :: cs => patMatchAt ps (c :: cs) || regexTest ps cs

/-- A regular-expression metacharacter other than `.` (queries containing
one are outside the modelled fragment). -/
def isRegexMeta (c : Char) : Bool :=
  c == '^' || c == '$' || c == '\\' || c == '*' || c == '+' || c == '?' ||
  c == '(' || c == ')' || c == '[' || c == ']' || c == '|' ||
  c == Char.ofNat 0x7b || c == Char.ofNat 0x7d

/-- Parses a query string into a modelled pattern: defined exactly on the
metacharacter-free fragment (with `.` allowed). -/
def parsePat (q : String) : Option (List Pat) :=
  if q.toList.all (fun c => !isRegexMeta c) then
    some (q.toList.map (fun c => if c == '.' then Pat.dot else Pat.lit c))
  else
    none

/-- Model of `new RegExp(q, 'i')` matched against `subject` or `location`, as in the
`$or` text query of `app.get('/search')`. -/
def textMatches (ps : List Pat) (l : Lesson) : Bool :=
  regexTest ps l.subject.toList || regexTest ps l.location.toList

/-- Whitespace trimmed by JavaScript string-to-number conversions. -/
def jsTrim (cs : List Char) : List Char :=
  ((cs.dropWhile jsWhitespace).reverse.dropWhile jsWhitespace).reverse

/-- Validity of an exponent suffix of a decimal literal: empty, or
`e`/`E`, an optional sign, and at least one digit. -/
def decExpOk (cs : List Char) : Bool :=
  match cs with
  | [] => true
  | e :: rest =>
    if e == 'e' || e == 'E' then
      match rest with
      | '+' :: ds => ds ≠ [] && ds.all Char.isDigit
      | '-' :: ds => ds ≠ [] && ds.all Char.isDigit
      | ds => ds ≠ [] && ds.all Char.isDigit
    else false

/-- An unsigned decimal numeric literal: `digits [. digits] [exp]` or
`. digits [exp]`. -/
def unsignedDecimal (cs : List Char) : Bool :=
  let intPart := cs.takeWhile Char.isDigit
  let rest := cs.dropWhile Char.isDigit
  if intPart = [] then
    match rest with
    | '.' :: r2 =>
      let frac := r2.takeWhile Char.isDigit
      frac ≠ [] && decExpOk (r2.dropWhile Char.isDigit)
    | _ => false
  else
    match rest with
    | [] => true
    | '.' :: r2 => decExpOk (r2.dropWhile Char.isDigit)
    | _ => decExpOk rest

/-- An unsigned numeric literal after the optional sign: `Infinity` or a
decimal literal. -/
def unsignedNumeric (cs : List Char) : Bool :=
  cs = "Infinity".toList || unsignedDecimal cs

/-- A trimmed non-empty string accepted by JavaScript `Number(...)`:
an optionally signed decimal literal or `Infinity`, or an unsigned
hexadecimal, octal, or binary literal. -/
def strNumericLiteral (cs : List Char) : Bool :=
  match cs with
  | '0' :: 'x' :: rest => rest ≠ [] && rest.all isHexDigit
  | '0' :: 'X' :: rest => rest ≠ [] && rest.all isHexDigit
  | '0' :: 'o' :: rest => rest ≠ [] && rest.all (fun c => '0' ≤ c && c ≤ '7')
  | '0' :: 'O' :: rest => rest ≠ [] && rest.all (fun c => '0' ≤ c && c ≤ '7')
  | '0' :: 'b' :: rest => rest ≠ [] && rest.all (fun c => c == '0' || c == '1')
  | '0' :: 'B' :: rest => rest ≠ [] && rest.all (fun c => c == '0' || c == '1')
  | '+' :: rest => unsignedNumeric rest
  | '-' :: rest => unsignedNumeric rest
  | _ => unsignedNumeric cs

/-- JavaScript `isNaN(q)` on a string: `Number(q)` is `NaN`.  The empty
(or all-whitespace) string converts to `0`, so it is not `NaN`. -/
def jsIsNaNStr (q : String) : Bool :=
  let cs := jsTrim q.toList
  if cs = [] then false else !strNumericLiteral cs

/-- Numeric value of a non-empty list of decimal digits. -/
def decDigitsVal (ds : List Char) : Nat :=
  ds.foldl (fun a c => a * 10 + (c.toNat - '0'.toNat)) 0

/-- Numeric value of a non-empty list of hexadecimal digits. -/
def hexDigitsVal (ds : List Char) : Nat :=
  ds.foldl
    (fun a c =>
      a * 16 +
        (if c.isDigit then c.toNat - '0'.toNat
         else if 'a' ≤ c && c ≤ 'f' then c.toNat - 'a'.toNat + 10
         else c.toNat - 'A'.toNat + 10))
    0

/-- The digits consumed by `parseInt` after the sign: a `0x`/`0X` prefix
switches to hexadecimal; parsing stops at the first unusable character and
yields `none` (`NaN`) when no digit was consumed. -/
def parseIntDigits (cs : List Char) : Option Nat :=
  match cs with
  | '0' :: 'x' :: rest =>
    let ds := rest.takeWhile isHexDigit
    if ds = [] then none else some (hexDigitsVal ds)
  | '0' :: 'X' :: rest =>
    let ds := rest.takeWhile isHexDigit
    if ds = [] then none else some (hexDigitsVal ds)
  | _ =>
    let ds := cs.takeWhile Char.isDigit
    if ds = [] then none else some (decDigitsVal ds)

/-- JavaScript `parseInt(q)` (radix autodetected): `none` models `NaN`. -/
def jsParseInt (q : String) : Option Int :=
  match jsTrim q.toList with
  | '+' :: rest => (parseIntDigits rest).map (fun n => (n : Int))
  | '-' :: rest => (parseIntDigits rest).map (fun n => -(n : Int))
  | rest => (parseIntDigits rest).map (fun n => (n : Int))

/-- The value compared against `price` and `spaces` by the numeric query:
`isNaN(q) ? -1 : parseInt(q)`; `none` models a `NaN` comparison value,
which matches no integer field. -/
def numericTarget (q : String) : Option Int :=
  if jsIsNaNStr q then some (-1) else jsParseInt q

/-- Whether one lesson is matched by the numeric `$or` query
(`price` or `spaces` equal to the target). -/
def numericMatches (q : String) (l : Lesson) : Bool :=
  match numericTarget q with
  | some v => l.price == v || l.spaces == v
  | none => false

/-- The duplicate-removal step of the search handler, translated from
`allResults.filter((lesson, index, self) => index === self.findIndex(l =>
l._id.toString() === lesson._id.toString()))`: an element is kept exactly
when its index is the first index carrying its `_id`. -/
def uniqueById (xs : List Lesson) : List Lesson :=
  ((xs.enum).filter
    (fun p => xs.findIdx (fun l => l._id == p.2._id) == p.1)).map Prod.snd

/-- The response of `GET /search` (the 500 branch needs a database failure
and is outside the model). -/
inductive SearchResp where
  | badRequest (msg : String)
  | ok (results : List Lesson)
deriving DecidableEq, Repr

/-- Handler `app.get('/search')`: rejects a missing/empty query, runs the text query
and the numeric query, and returns their concatenation with duplicate ids
removed.  Returns `none` for queries outside the modelled regex fragment. -/
def searchLessons (db : DB) (q : String) : Option SearchResp :=
  if q = "" then some (.badRequest "Search query is required")
  else
    match parsePat q with
    | none => none
    | some ps =>
      let textResults := db.lessons.filter (textMatches ps)
      let numericResults := db.lessons.filter (numericMatches q)
      some (.ok (uniqueById (textResults ++ numericResults)))

/-! ### Claim-side statements

`claimedIdsStatus` and `claimedOrderStatus` transcribe the spec's validation
sequence for order creation (spec §4.2, claim C1), to be compared with the
handler `postOrders` translated from the code. -/

/-- Modelled from the spec wording of validation step 4: for each identifier
in list order, a malformed key gives 400, an unresolved lesson 404, and a
lesson with fewer than one remaining space 400; `none` when every identifier
passes. -/
def claimedIdsStatus (db : DB) : List String → Option Nat
  | [] => none
  | lessonId :: rest =>
    if !isValidObjectId lessonId then some 400
    else
      match findLesson db lessonId with
      | none => some 404
      | some lesson =>
        if lesson.spaces < 1 then some 400 else claimedIdsStatus db rest

/-- Modelled from the spec wording of the fail-fast validation sequence:
(1) missing field or non-array `lessonIds` gives 400; (2) an empty
identifier list gives 400; (3) a name or phone failing its regular
expression gives 400; (4) the per-identifier checks; otherwise 201. -/
def claimedOrderStatus (db : DB) (b : OrderBody) : Nat :=
  match b.name, b.phone, b.lessonIds with
  | none, _, _ => 400
  | _, none, _ => 400
  | _, _, .absent => 400
  | _, _, .notArray => 400
  | some n, some p, .arr ids =>
    if ids = [] then 400
    else if !nameRegexTest n || !phoneRegexTest p then 400
    else (claimedIdsStatus db ids).getD 201

/-! ### Theorems about `POST /orders` -/

/-- The validation loop of the handler produces exactly the status predicted
by the spec's step-4 sequence. -/
theorem collectLessons_status (db : DB) (ids : List String) :
    (match collectLessons db ids with
     | .error e => claimedIdsStatus db ids = some (ordersStatus e)
     | .ok _ => claimedIdsStatus db ids = none) := by
  induction ids with
  | nil => simp [collectLessons, claimedIdsStatus]
  | cons lessonId rest ih =>
    by_cases hv : isValidObjectId lessonId
    · cases hf : findLesson db lessonId with
      | none =>
        simp [collectLessons, claimedIdsStatus, hv, hf, ordersStatus]
      | some lesson =>
        by_cases hs : lesson.spaces < 1
        · simp [collectLessons, claimedIdsStatus, hv, hf, hs, ordersStatus]
        · cases hc : collectLessons db rest with
          | error e =>
            rw [hc] at ih
            simp [collectLessons, claimedIdsStatus, hv, hf, hs, hc, ih]
          | ok ls =>
            rw [hc] at ih
            simp [collectLessons, claimedIdsStatus, hv, hf, hs, hc, ih]
    · simp [collectLessons, claimedIdsStatus, hv, ordersStatus]

/-- Effect of a `POST /orders` request on the database: either the database
is untouched, or the request succeeded (status 201) and only the `orders`
collection changed. -/
theorem postOrders_effect (db : DB) (b : OrderBody) (now : Nat)
    (newId : String) :
    (postOrders db b now newId).2 = db ∨
    (((postOrders db b now newId).2).lessons = db.lessons ∧
      ordersStatus (postOrders db b now newId).1 = 201) := by
  obtain ⟨name, phone, lessonIds⟩ := b
  by_cases h1 : (!truthyStr name || !truthyStr phone ||
      !idsTruthy lessonIds || !idsIsArray lessonIds) = true
  · left
    simp [postOrders, h1]
  · cases lessonIds with
    | absent => left; simp [postOrders, h1]
    | notArray => left; simp [postOrders, h1]
    | arr ids =>
      by_cases h2 : (ids.length == 0) = true
      · left; simp [postOrders, h1, h2]
      · by_cases h3 : (!nameRegexTest (name.getD "")) = true
        · left; simp [postOrders, h1, h2, h3]
        · by_cases h4 : (!phoneRegexTest (phone.getD "")) = true
          · left; simp [postOrders, h1, h2, h3, h4]
          · cases hc : collectLessons db ids with
            | error e => left; simp [postOrders, h1, h2, h3, h4, hc]
            | ok ls =>
              right
              simp [postOrders, h1, h2, h3, h4, hc, ordersStatus]

/-- C1: order creation validates fail-fast in the claimed order, the first
failure deciding the response status: missing/malformed fields 400, empty
list 400, regex failures 400, then per-identifier malformed-key 400,
missing-lesson 404, no-space 400; otherwise 201. -/
theorem orders_validation_order_C1 (db : DB) (b : OrderBody) (now : Nat)
    (newId : String) :
    ordersStatus (postOrders db b now newId).1 = claimedOrderStatus db b := by
  obtain ⟨name, phone, lessonIds⟩ := b
  cases name with
  | none => simp [postOrders, claimedOrderStatus, truthyStr, ordersStatus]
  | some n =>
    cases phone with
    | none =>
      simp [postOrders, claimedOrderStatus, truthyStr, ordersStatus]
    | some p =>
      cases lessonIds with
      | absent =>
        simp [postOrders, claimedOrderStatus, idsTruthy, ordersStatus]
      | notArray =>
        simp [postOrders, claimedOrderStatus, idsIsArray, idsTruthy,
          ordersStatus]
      | arr ids =>
        by_cases hn : n = ""
        · subst hn
          rcases ids with _ | ⟨i, ids'⟩
          · simp [postOrders, claimedOrderStatus, truthyStr, ordersStatus]
          · simp [postOrders, claimedOrderStatus, truthyStr, ordersStatus,
              nameRegexTest]
        · by_cases hp : p = ""
          · subst hp
            rcases ids with _ | ⟨i, ids'⟩
            · simp [postOrders, claimedOrderStatus, truthyStr, ordersStatus]
            · simp [postOrders, claimedOrderStatus, truthyStr, ordersStatus,
                hn, phoneRegexTest]
          · rcases ids with _ | ⟨i, ids'⟩
            · simp [postOrders, claimedOrderStatus, truthyStr, ordersStatus,
                hn, hp, idsTruthy, idsIsArray]
            · simp only [postOrders, claimedOrderStatus, truthyStr, hn, hp,
                idsTruthy, idsIsArray]
              by_cases hnr : nameRegexTest n
              · by_cases hpr : phoneRegexTest p
                · have hloop := collectLessons_status db (i :: ids')
                  cases hc : collectLessons db (i :: ids') with
                  | error e =>
                    rw [hc] at hloop
                    simp [hn, hp, hnr, hpr, hc, hloop, ordersStatus]
                  | ok ls =>
                    rw [hc] at hloop
                    simp [hn, hp, hnr, hpr, hc, hloop, ordersStatus]
                · simp [hn, hp, hnr, hpr, ordersStatus]
              · simp [hn, hp, hnr, ordersStatus]

/-- C2: a `POST /orders` request, successful or not, leaves every lesson
document exactly as it was: order creation never touches the `lessons`
collection, in particular it never decrements `spaces`. -/
theorem orders_leave_lessons_unchanged_C2 (db : DB) (b : OrderBody)
    (now : Nat) (newId : String) :
    ((postOrders db b now newId).2).lessons = db.lessons := by
  rcases postOrders_effect db b now newId with h | ⟨h, _⟩
  · rw [h]
  · exact h

/-- C10: order creation is atomic on failure — whenever the response status
is not 201, the database (in particular the `orders` collection) is
untouched; the insert happens only after every validation step passed. -/
theorem no_insert_on_failure_C10 (db : DB) (b : OrderBody) (now : Nat)
    (newId : String)
    (h : ordersStatus (postOrders db b now newId).1 ≠ 201) :
    (postOrders db b now newId).2 = db := by
  rcases postOrders_effect db b now newId with h2 | ⟨_, h2⟩
  · exact h2
  · exact absurd h2 h

/-- C9: a name made only of whitespace characters (for example `" "`)
passes the name validation of order creation, and validation proceeds to
the phone check: with such a name and a non-digit phone, the response is
the phone error. -/
theorem whitespace_name_C9 (s p : String) (db : DB) (ids : List String)
    (now : Nat) (newId : String)
    (hne : s ≠ "") (hws : s.toList.all jsWhitespace = true) :
    nameRegexTest s = true ∧
    (p ≠ "" → phoneRegexTest p = false → ids ≠ [] →
      (postOrders db ⟨some s, some p, .arr ids⟩ now newId).1 =
        .badRequest "Phone must contain numbers only") := by
  have hname : nameRegexTest s = true := by
    simp only [nameRegexTest, Bool.and_eq_true, decide_eq_true_eq]
    refine ⟨hne, ?_⟩
    simp only [List.all_eq_true] at hws ⊢
    intro c hc
    simp [isNameChar, hws c hc]
  refine ⟨hname, fun hpne hpr hids => ?_⟩
  rcases ids with _ | ⟨i, ids'⟩
  · exact absurd rfl hids
  · simp [postOrders, truthyStr, hne, hpne, idsTruthy, idsIsArray, hname,
      hpr]

/-- When the validation loop succeeds, it returns exactly the lessons the
identifiers resolve to, in list order. -/
theorem collectLessons_ok_resolves (db : DB) :
    ∀ (ids : List String) (ls : List Lesson),
      collectLessons db ids = .ok ls →
      ls.length = ids.length ∧
      ∀ i (hi : i < ids.length) (hi' : i < ls.length),
        findLesson db (ids.get ⟨i, hi⟩) = some (ls.get ⟨i, hi'⟩) := by
  intro ids
  induction ids with
  | nil =>
    intro ls h
    simp only [collectLessons] at h
    cases h
    exact ⟨rfl, fun i hi _ => absurd hi (by simp)⟩
  | cons lessonId rest ih =>
    intro ls h
    by_cases hv : isValidObjectId lessonId
    · cases hf : findLesson db lessonId with
      | none => simp [collectLessons, hv, hf] at h
      | some lesson =>
        by_cases hs : lesson.spaces < 1
        · simp [collectLessons, hv, hf, hs] at h
        · cases hc : collectLessons db rest with
          | error e => simp [collectLessons, hv, hf, hs, hc] at h
          | ok ls' =>
            have hls : ls = lesson :: ls' := by
              simp [collectLessons, hv, hf, hs, hc] at h
              exact h.symm
            subst hls
            obtain ⟨hlen, hres⟩ := ih ls' hc
            refine ⟨by simp [hlen], ?_⟩
            intro i hi hi'
            cases i with
            | zero => simpa using hf
            | succ j =>
              simpa using hres j (by simpa using hi) (by simpa using hi')
    · simp [collectLessons, hv] at h

/-- C4: on a request passing every validation step, order creation inserts
exactly one order document (name, phone, the identifier list, the resolved
lessons' subjects, the timestamp) and responds 201 with the generated id and
one subject/location/price summary per booked lesson; moreover the resolved
lessons are exactly what the identifiers resolve to, in order. -/
theorem order_success_effect_C4 (db : DB) (n p : String) (ids : List String)
    (ls : List Lesson) (now : Nat) (newId : String)
    (hids : ids ≠ [])
    (hnr : nameRegexTest n = true) (hpr : phoneRegexTest p = true)
    (hc : collectLessons db ids = .ok ls) :
    postOrders db ⟨some n, some p, .arr ids⟩ now newId =
      (.created newId
         (ls.map (fun l =>
           { subject := l.subject, location := l.location,
             price := l.price })),
       { db with
         orders := db.orders ++
           [{ name := n, phone := p, lessonIds := ids,
              lessonNames := ls.map (fun l => l.subject),
              orderDate := now }] }) ∧
    ls.length = ids.length ∧
    (∀ i (hi : i < ids.length) (hi' : i < ls.length),
       findLesson db (ids.get ⟨i, hi⟩) = some (ls.get ⟨i, hi'⟩)) := by
  have hn : n ≠ "" := by
    simp only [nameRegexTest, Bool.and_eq_true, decide_eq_true_eq] at hnr
    exact hnr.1
  have hp : p ≠ "" := by
    simp only [phoneRegexTest, Bool.and_eq_true, decide_eq_true_eq] at hpr
    exact hpr.1
  obtain ⟨hlen, hres⟩ := collectLessons_ok_resolves db ids ls hc
  refine ⟨?_, hlen, hres⟩
  rcases ids with _ | ⟨i, ids'⟩
  · exact absurd rfl hids
  · simp [postOrders, truthyStr, hn, hp, idsTruthy, idsIsArray, hnr, hpr, hc]

/-! ### Theorems about `PUT /lessons/:id` -/

/-- A list mapped by a function that fixes each of its members is itself. -/
theorem map_eq_self_of_fixes {α : Type} (f : α → α) :
    ∀ xs : List α, (∀ a ∈ xs, f a = a) → xs.map f = xs := by
  intro xs
  induction xs with
  | nil => intro _; rfl
  | cons x xs ih =>
    intro h
    simp only [List.map_cons]
    rw [h x (by simp), ih (fun a ha => h a (List.mem_cons_of_mem x ha))]

/-- Under duplicate-free ids (as MongoDB guarantees for `_id`), `updateOne`
is pointwise: it rewrites exactly the documents whose `_id` matches, which
is at most one. -/
theorem updateFirst_eq_map (lessonId : String) (f : Lesson → Lesson) :
    ∀ xs : List Lesson, (xs.map (fun l => l._id)).Nodup →
      updateFirst (fun l => l._id == lessonId) f xs =
        xs.map (fun l => if l._id == lessonId then f l else l) := by
  intro xs
  induction xs with
  | nil => intro _; rfl
  | cons x xs ih =>
    intro hu
    simp only [List.map_cons, List.nodup_cons, List.mem_map] at hu
    obtain ⟨hx, hxs⟩ := hu
    by_cases hm : x._id == lessonId
    · have hid : x._id = lessonId := by simpa using hm
      simp only [updateFirst, hm, if_pos, List.map_cons, if_true]
      have : ∀ a ∈ xs, (if a._id == lessonId then f a else a) = a := by
        intro a ha
        have : a._id ≠ lessonId := by
          intro hcontra
          exact hx ⟨a, ha, hcontra.trans hid.symm⟩
        simp [this]
      rw [map_eq_self_of_fixes _ xs this]
    · simp only [updateFirst, hm, List.map_cons, if_neg (by simpa using hm),
        Bool.false_eq_true, if_false]
      rw [ih hxs]

/-- C5: lesson update applies exactly the present subset of
subject/location/price/spaces to the (unique) matched lesson and changes
nothing else — absent fields and `image` are kept, and every other lesson
document is untouched; an empty update body is rejected with 400 and leaves
the database unchanged. -/
theorem lesson_update_frame_C5 (db : DB) (lessonId : String) (b : PutBody) :
    (putBodyEmpty b = true →
       putStatus (putLesson db lessonId b).1 = 400 ∧
       (putLesson db lessonId b).2 = db) ∧
    (isValidObjectId lessonId = false →
       putStatus (putLesson db lessonId b).1 = 400 ∧
       (putLesson db lessonId b).2 = db) ∧
    (putBodyEmpty b = false → isValidObjectId lessonId = true →
       (db.lessons.map (fun l => l._id)).Nodup →
       ((putLesson db lessonId b).2).lessons =
         db.lessons.map
           (fun l => if l._id == lessonId then applySet b l else l) ∧
       ((putLesson db lessonId b).2).orders = db.orders) ∧
    (∀ l : Lesson,
       (applySet b l)._id = l._id ∧
       (applySet b l).image = l.image ∧
       (b.spaces = none → (applySet b l).spaces = l.spaces) ∧
       (b.subject = none → (applySet b l).subject = l.subject) ∧
       (b.location = none → (applySet b l).location = l.location) ∧
       (b.price = none → (applySet b l).price = l.price) ∧
       (∀ v, b.spaces = some v → (applySet b l).spaces = v) ∧
       (∀ v, b.subject = some v → (applySet b l).subject = v) ∧
       (∀ v, b.location = some v → (applySet b l).location = v) ∧
       (∀ v, b.price = some v → (applySet b l).price = v)) := by
  refine ⟨?_, ?_, ?_, ?_⟩
  · intro he
    by_cases hv : isValidObjectId lessonId
    · simp [putLesson, hv, he, putStatus]
    · simp [putLesson, hv, putStatus]
  · intro hv
    simp [putLesson, hv, putStatus]
  · intro he hv hu
    cases hf : findLesson db lessonId with
    | none =>
      have hall : ∀ l ∈ db.lessons, (l._id == lessonId) = false := by
        simpa [findLesson, List.find?_eq_none] using hf
      constructor
      · simp only [putLesson, hv, he, hf]
        simp only [Bool.not_true, Bool.false_eq_true, if_false,
          Option.isNone_none, if_true]
        rw [map_eq_self_of_fixes _ db.lessons (fun a ha => by
          simp [hall a ha])]
      · simp [putLesson, hv, he, hf]
    | some lesson =>
      constructor
      · simp only [putLesson, hv, he, hf]
        simp only [Bool.not_true, Bool.false_eq_true, if_false,
          Option.isNone_some, if_true]
        exact updateFirst_eq_map lessonId (applySet b) db.lessons hu
      · simp [putLesson, hv, he, hf]
  · intro l
    refine ⟨rfl, rfl, ?_, ?_, ?_, ?_, ?_, ?_, ?_, ?_⟩ <;>
      first
        | (intro h; simp [applySet, h])
        | (intro v h; simp [applySet, h])

/-! ### Theorems about `GET /search` -/

/-- Every element of the deduplicated result list comes from the combined
result list. -/
theorem uniqueById_subset (xs : List Lesson) :
    ∀ l ∈ uniqueById xs, l ∈ xs := by
  intro l hl
  unfold uniqueById at hl
  simp only [List.mem_map] at hl
  obtain ⟨p, hp, rfl⟩ := hl
  have hp' : p ∈ xs.enum := List.mem_of_mem_filter hp
  exact List.getElem?_mem (List.mem_enum_iff_getElem?.1 hp')

/-- When equal ids only occur on equal documents, every element of the
combined list survives deduplication. -/
theorem uniqueById_mem_of_mem (xs : List Lesson)
    (hinj : ∀ a ∈ xs, ∀ b ∈ xs, a._id = b._id → a = b) :
    ∀ l ∈ xs, l ∈ uniqueById xs := by
  intro l hl
  have hex : ∃ x ∈ xs, (x._id == l._id) = true := ⟨l, hl, by simp⟩
  have hlt := List.findIdx_lt_length_of_exists hex
  have hy : ((xs.get ⟨xs.findIdx (fun t => t._id == l._id), hlt⟩)._id ==
      l._id) = true := List.findIdx_getElem (w := hlt)
  have hyl : xs.get ⟨xs.findIdx (fun t => t._id == l._id), hlt⟩ = l :=
    hinj _ (List.getElem_mem hlt) l hl (by simpa using hy)
  unfold uniqueById
  simp only [List.mem_map]
  refine ⟨(xs.findIdx (fun t => t._id == l._id), l), ?_, rfl⟩
  rw [List.mem_filter]
  refine ⟨List.mem_enum_iff_getElem?.2 ?_, by simp⟩
  rw [List.getElem?_eq_getElem hlt]
  exact congrArg some hyl

/-- The deduplicated result list carries each `_id` at most once. -/
theorem uniqueById_ids_nodup (xs : List Lesson) :
    ((uniqueById xs).map (fun l => l._id)).Nodup := by
  have hfst : ((xs.enum).map Prod.fst).Nodup := by
    rw [List.enum_map_fst]; exact List.nodup_range _
  have henum : (xs.enum).Nodup := List.Nodup.of_map _ hfst
  unfold uniqueById
  rw [List.map_map]
  refine List.Nodup.map_on ?_ (List.Nodup.filter _ henum)
  intro p hp q hq hid
  have hp3 : xs.findIdx (fun l => l._id == p.2._id) = p.1 := by
    simpa using (List.mem_filter.1 hp).2
  have hq3 : xs.findIdx (fun l => l._id == q.2._id) = q.1 := by
    simpa using (List.mem_filter.1 hq).2
  have hid' : p.2._id = q.2._id := hid
  have hfst_eq : p.1 = q.1 := by rw [← hp3, ← hq3, hid']
  exact List.inj_on_of_nodup_map hfst (List.mem_of_mem_filter hp)
    (List.mem_of_mem_filter hq) hfst_eq

/-- On a list whose ids are already duplicate-free, deduplication is the
identity. -/
theorem uniqueById_eq_self (xs : List Lesson)
    (hu : (xs.map (fun l => l._id)).Nodup) : uniqueById xs = xs := by
  unfold uniqueById
  have hfilter :
      (xs.enum).filter
        (fun p => xs.findIdx (fun l => l._id == p.2._id) == p.1) =
      xs.enum := by
    apply List.filter_eq_self.2
    intro p hp
    obtain ⟨hlt, heq⟩ :=
      List.getElem?_eq_some_iff.1 (List.mem_enum_iff_getElem?.1 hp)
    simp only [beq_iff_eq]
    apply (List.findIdx_eq hlt).2
    refine ⟨by simp [heq], ?_⟩
    intro j hj
    have hjlt : j < xs.length := Nat.lt_trans hj hlt
    have hj' : j < (xs.map (fun l => l._id)).length := by simpa using hjlt
    have hlt' : p.1 < (xs.map (fun l => l._id)).length := by simpa using hlt
    have hne : (xs.get ⟨j, hjlt⟩)._id ≠ p.2._id := by
      intro hcontra
      have hmapeq : (xs.map (fun l => l._id)).get ⟨j, hj'⟩ =
          (xs.map (fun l => l._id)).get ⟨p.1, hlt'⟩ := by
        simp only [List.get_eq_getElem, List.getElem_map]
        rw [heq]
        simpa using hcontra
      have : j = p.1 := by
        have h2 := hmapeq
        simp only [List.get_eq_getElem] at h2
        exact (List.Nodup.getElem_inj_iff hu).1 h2
      omega
    simpa using hne
  rw [hfilter, List.enum_map_snd]

/-- C6: for every modelled query, the search response is the union of the
text-query and numeric-query results deduplicated by lesson id: ids occur at
most once, and a lesson is in the response exactly when at least one of the
two queries returns it. -/
theorem search_union_dedup_C6 (db : DB) (q : String) (ps : List Pat)
    (hq : q ≠ "") (hp : parsePat q = some ps)
    (hu : (db.lessons.map (fun l => l._id)).Nodup) :
    searchLessons db q =
      some (.ok (uniqueById (db.lessons.filter (textMatches ps) ++
                             db.lessons.filter (numericMatches q)))) ∧
    ((uniqueById (db.lessons.filter (textMatches ps) ++
                  db.lessons.filter (numericMatches q))).map
        (fun l => l._id)).Nodup ∧
    (∀ l, l ∈ uniqueById (db.lessons.filter (textMatches ps) ++
                          db.lessons.filter (numericMatches q)) ↔
       (l ∈ db.lessons.filter (textMatches ps) ∨
        l ∈ db.lessons.filter (numericMatches q))) := by
  have hinj : ∀ a ∈ db.lessons, ∀ b ∈ db.lessons, a._id = b._id → a = b :=
    List.inj_on_of_nodup_map hu
  refine ⟨by simp [searchLessons, hq, hp], uniqueById_ids_nodup _, fun l => ?_⟩
  constructor
  · intro hmem
    exact List.mem_append.1 (uniqueById_subset _ l hmem)
  · intro hmem
    apply uniqueById_mem_of_mem
    · intro a ha b hb
      have ha' : a ∈ db.lessons := by
        rcases List.mem_append.1 ha with h | h
        · exact (List.mem_filter.1 h).1
        · exact (List.mem_filter.1 h).1
      have hb' : b ∈ db.lessons := by
        rcases List.mem_append.1 hb with h | h
        · exact (List.mem_filter.1 h).1
        · exact (List.mem_filter.1 h).1
      exact hinj a ha' b hb'
    · exact List.mem_append.2 hmem

/-- C7 counterexample: on the query `"abc"`, which does not parse as an
integer (`isNaN` holds), the numeric branch of the search matches a lesson
whose `price` is `-1` — the sentinel is an equality filter with `-1`, not a
match-nothing filter — so the response is not the text results alone. -/
theorem numeric_sentinel_cex_C7 :
    jsIsNaNStr "abc" = true ∧
    (DB.mk [⟨"aaaaaaaaaaaaaaaaaaaaaaaa", "Maths", "London", -1, 5,
      "math.jpg"⟩] []).lessons.filter (numericMatches "abc") =
      [⟨"aaaaaaaaaaaaaaaaaaaaaaaa", "Maths", "London", -1, 5, "math.jpg"⟩] ∧
    searchLessons
      (DB.mk [⟨"aaaaaaaaaaaaaaaaaaaaaaaa", "Maths", "London", -1, 5,
        "math.jpg"⟩] []) "abc" =
      some (.ok [⟨"aaaaaaaaaaaaaaaaaaaaaaaa", "Maths", "London", -1, 5,
        "math.jpg"⟩]) ∧
    (DB.mk [⟨"aaaaaaaaaaaaaaaaaaaaaaaa", "Maths", "London", -1, 5,
      "math.jpg"⟩] []).lessons.filter
        (textMatches [Pat.lit 'a', Pat.lit 'b', Pat.lit 'c']) = [] := by
  decide

/-- C7 amended: for a query that fails numeric parsing the numeric filter is
equality with the sentinel `-1`, so it contributes no results on any
database in which no lesson has `price` or `spaces` equal to `-1`, and the
response then equals the text-match results alone. -/
theorem numeric_sentinel_amended_C7 (db : DB) (q : String) (ps : List Pat)
    (hq : q ≠ "") (hp : parsePat q = some ps)
    (hnan : jsIsNaNStr q = true)
    (hclean : ∀ l ∈ db.lessons, l.price ≠ -1 ∧ l.spaces ≠ -1)
    (hu : (db.lessons.map (fun l => l._id)).Nodup) :
    db.lessons.filter (numericMatches q) = [] ∧
    searchLessons db q = some (.ok (db.lessons.filter (textMatches ps))) := by
  have hnum : db.lessons.filter (numericMatches q) = [] := by
    apply List.filter_eq_nil_iff.2
    intro l hl
    obtain ⟨hpr, hsp⟩ := hclean l hl
    simp [numericMatches, numericTarget, hnan, hpr, hsp]
  refine ⟨hnum, ?_⟩
  have htext : ((db.lessons.filter (textMatches ps)).map
      (fun l => l._id)).Nodup := by
    have hsub : List.Sublist (db.lessons.filter (textMatches ps))
        db.lessons := List.filter_sublist _
    exact List.Nodup.sublist (hsub.map (fun l => l._id)) hu
  simp only [searchLessons, if_neg hq, hp]
  rw [hnum, List.append_nil, uniqueById_eq_self _ htext]

/-- Matching an all-literal pattern at the head of a subject is exactly a
case-folded prefix relation. -/
theorem patMatchAt_lit_iff (qs : List Char) :
    ∀ cs : List Char,
      patMatchAt (qs.map Pat.lit) cs = true ↔
        qs.map Char.toLower <+: cs.map Char.toLower := by
  induction qs with
  | nil => intro cs; simp [patMatchAt]
  | cons a as ih =>
    intro cs
    cases cs with
    | nil => simp [patMatchAt]
    | cons c cs =>
      simp only [List.map_cons, patMatchAt, patCharMatch,
        Bool.and_eq_true, beq_iff_eq, List.cons_prefix_cons]
      exact and_congr Iff.rfl (ih cs)

/-- Matching an all-literal pattern anywhere in a subject is exactly a
case-folded substring (infix) relation. -/
theorem regexTest_lit_iff (qs : List Char) :
    ∀ cs : List Char,
      regexTest (qs.map Pat.lit) cs = true ↔
        qs.map Char.toLower <:+: cs.map Char.toLower := by
  intro cs
  induction cs with
  | nil =>
    simp only [regexTest, patMatchAt_lit_iff, List.map_nil]
    constructor
    · intro h
      exact (List.prefix_nil.1 h) ▸ List.infix_rfl
    · intro h
      exact ((List.infix_nil).1 h) ▸ List.nil_prefix
  | cons c cs ih =>
    simp only [regexTest, Bool.or_eq_true, patMatchAt_lit_iff, ih,
      List.map_cons, List.infix_cons_iff]

/-- The case-insensitive-substring relation the spec describes for the text
branch of the search: the case-folded query occurs inside the case-folded
field. -/
def ciSubstring (q s : String) : Prop :=
  (q.toList.map Char.toLower) <:+: (s.toList.map Char.toLower)

instance (q s : String) : Decidable (ciSubstring q s) :=
  List.decidableInfix _ _

/-- C8 counterexample: the query `"."` is not a substring of `"Maths"` or
`"London"` in any case folding, yet the text branch matches the lesson,
because the query is used as a regular expression and `.` matches any
character. -/
theorem text_regex_cex_C8 :
    parsePat "." = some [Pat.dot] ∧
    textMatches [Pat.dot]
      ⟨"aaaaaaaaaaaaaaaaaaaaaaaa", "Maths", "London", 50, 5, "math.jpg"⟩ =
      true ∧
    ¬ciSubstring "." "Maths" ∧ ¬ciSubstring "." "London" := by
  refine ⟨by decide, by decide, by decide, by decide⟩

/-- C8 amended: the text branch matches by case-insensitive regular
expression, not by plain substring; for every query in the modelled fragment
containing no `.`, the two notions coincide: the lesson is matched exactly
when the query is a case-insensitive substring of its subject or of its
location. -/
theorem text_substring_amended_C8 (q : String) (ps : List Pat) (l : Lesson)
    (hp : parsePat q = some ps) (hdot : Pat.dot ∉ ps) :
    textMatches ps l = true ↔
      (ciSubstring q l.subject ∨ ciSubstring q l.location) := by
  have hps : ps = q.toList.map Pat.lit := by
    simp only [parsePat] at hp
    by_cases hmeta : q.toList.all (fun c => !isRegexMeta c)
    · rw [if_pos hmeta] at hp
      cases hp
      apply List.map_congr_left
      intro c hc
      by_cases hdotc : c = '.'
      · exfalso
        apply hdot
        simp only [List.mem_map]
        exact ⟨c, hc, by simp [hdotc]⟩
      · simp [hdotc]
    · rw [if_neg hmeta] at hp
      cases hp
  subst hps
  simp only [textMatches, Bool.or_eq_true, regexTest_lit_iff]
  rfl

/-! ### The spaces invariant (C3) -/

/-- Every element of an `updateOne` result is either an original document or
the image of an original document under the update. -/
theorem updateFirst_mem (p : Lesson → Bool) (f : Lesson → Lesson) :
    ∀ (xs : List Lesson) (x : Lesson), x ∈ updateFirst p f xs →
      x ∈ xs ∨ ∃ y ∈ xs, x = f y := by
  intro xs
  induction xs with
  | nil => intro x hx; simp [updateFirst] at hx
  | cons a as ih =>
    intro x hx
    by_cases hp : p a
    · simp only [updateFirst, hp, if_pos, List.mem_cons] at hx
      rcases hx with hx | hx
      · exact Or.inr ⟨a, by simp, hx⟩
      · exact Or.inl (List.mem_cons_of_mem a hx)
    · simp only [updateFirst, hp, Bool.false_eq_true, if_false,
        List.mem_cons] at hx
      rcases hx with hx | hx
      · exact Or.inl (by simp [hx])
      · rcases ih x hx with h | ⟨y, hy, hxy⟩
        · exact Or.inl (List.mem_cons_of_mem a h)
        · exact Or.inr ⟨y, List.mem_cons_of_mem a hy, hxy⟩

/-- C3 counterexample: lesson update performs no bounds validation, so a
request with `spaces: -1` drives a lesson's `spaces` below zero from a state
in which every lesson satisfied the invariant. -/
theorem spaces_invariant_cex_C3 :
    (∀ l ∈ (DB.mk [⟨"aaaaaaaaaaaaaaaaaaaaaaaa", "Math", "London", 50, 5,
        "math.jpg"⟩] []).lessons, 0 ≤ l.spaces) ∧
    ∃ l ∈ ((putLesson
        (DB.mk [⟨"aaaaaaaaaaaaaaaaaaaaaaaa", "Math", "London", 50, 5,
          "math.jpg"⟩] [])
        "aaaaaaaaaaaaaaaaaaaaaaaa"
        ⟨some (-1), none, none, none⟩).2).lessons,
      l.spaces < 0 := by
  decide

/-- C3 amended: lesson listing, order creation, and search preserve
`spaces ≥ 0` (the first two never alter any lesson, and search only returns
stored lessons); lesson update preserves it exactly when the request
provides no `spaces` value or a non-negative one — a negative value is
applied unvalidated (see the counterexample). -/
theorem spaces_invariant_amended_C3 (db : DB)
    (hinv : ∀ l ∈ db.lessons, 0 ≤ l.spaces) :
    (∀ l ∈ getLessons db, 0 ≤ l.spaces) ∧
    (∀ (b : OrderBody) (now : Nat) (newId : String),
       ∀ l ∈ ((postOrders db b now newId).2).lessons, 0 ≤ l.spaces) ∧
    (∀ (lessonId : String) (b : PutBody),
       (∀ v, b.spaces = some v → 0 ≤ v) →
       ∀ l ∈ ((putLesson db lessonId b).2).lessons, 0 ≤ l.spaces) ∧
    (∀ (q : String) (ls : List Lesson),
       searchLessons db q = some (.ok ls) → ∀ l ∈ ls, 0 ≤ l.spaces) := by
  refine ⟨hinv, ?_, ?_, ?_⟩
  · intro b now newId l hl
    rcases postOrders_effect db b now newId with h | ⟨h, _⟩
    · rw [h] at hl
      exact hinv l hl
    · rw [h] at hl
      exact hinv l hl
  · intro lessonId b hb l hl
    by_cases hv : isValidObjectId lessonId
    · by_cases he : putBodyEmpty b
      · simp only [putLesson, hv, he, Bool.not_true, Bool.false_eq_true,
          if_false, if_true] at hl
        exact hinv l hl
      · cases hf : findLesson db lessonId with
        | none =>
          simp only [putLesson, hv, he, hf, Bool.not_true,
            Bool.false_eq_true, if_false, Option.isNone_none, if_true] at hl
          exact hinv l hl
        | some lesson =>
          simp only [putLesson, hv, he, hf, Bool.not_true,
            Bool.false_eq_true, if_false, Option.isNone_some] at hl
          rcases updateFirst_mem _ _ _ l hl with h | ⟨y, hy, hxy⟩
          · exact hinv l h
          · subst hxy
            simp only [applySet]
            cases hs : b.spaces with
            | none => simpa [hs] using hinv y hy
            | some v => simpa [hs] using hb v hs
    · simp only [putLesson, hv, Bool.not_false, if_true] at hl
      exact hinv l hl
  · intro q ls hsearch l hl
    by_cases hq : q = ""
    · simp [searchLessons, hq] at hsearch
    · cases hp : parsePat q with
      | none => simp [searchLessons, hq, hp] at hsearch
      | some ps =>
        simp only [searchLessons, hq, if_neg hq, hp, Option.some.injEq] at hsearch
        cases hsearch
        have := uniqueById_subset _ l hl
        rcases List.mem_append.1 this with h | h
        · exact hinv l (List.mem_filter.1 h).1
        · exact hinv l (List.mem_filter.1 h).1

/-! ### Concrete instances used by the witnesses -/

/-- A seeded lesson used as a concrete database row in witnesses. -/
def mathLesson : Lesson :=
  { _id := "aaaaaaaaaaaaaaaaaaaaaaaa", subject := "Math",
    location := "London", price := 50, spaces := 5, image := "math.jpg" }

/-- A one-lesson database used as a concrete state in witnesses. -/
def mathDb : DB := { lessons := [mathLesson], orders := [] }

/-! ### Witnesses -/

/-- Witness for C3: updating the sample lesson to two spaces keeps the
invariant. -/
theorem spaces_invariant_amended_witness_C3 :
    (0 : Int) ≤
      (Lesson.mk "aaaaaaaaaaaaaaaaaaaaaaaa" "Math" "London" 50 2
        "math.jpg").spaces :=
  (spaces_invariant_amended_C3 mathDb (by decide)).2.2.1
    "aaaaaaaaaaaaaaaaaaaaaaaa" ⟨some 2, none, none, none⟩
    (fun v hv => by simp only [Option.some.injEq] at hv; omega)
    (Lesson.mk "aaaaaaaaaaaaaaaaaaaaaaaa" "Math" "London" 50 2 "math.jpg")
    (by decide)

/-- Witness for C4: a concrete valid order inserts the order document and
returns the 201 payload. -/
theorem order_success_effect_witness_C4 :
    postOrders mathDb
      ⟨some "John Smith", some "123", .arr ["aaaaaaaaaaaaaaaaaaaaaaaa"]⟩
      7 "newid" =
      (.created "newid" [LessonSummary.mk "Math" "London" 50],
       DB.mk [mathLesson]
         [Order.mk "John Smith" "123" ["aaaaaaaaaaaaaaaaaaaaaaaa"]
           ["Math"] 7]) :=
  (order_success_effect_C4 mathDb "John Smith" "123"
    ["aaaaaaaaaaaaaaaaaaaaaaaa"] [mathLesson] 7 "newid"
    (by decide) (by decide) (by decide) rfl).1

/-- Witness for C5: the empty update is rejected without touching the
database; a `spaces`-only update rewrites exactly the matched document. -/
theorem lesson_update_frame_witness_C5 :
    (putStatus (putLesson mathDb "aaaaaaaaaaaaaaaaaaaaaaaa"
        ⟨none, none, none, none⟩).1 = 400 ∧
     (putLesson mathDb "aaaaaaaaaaaaaaaaaaaaaaaa"
        ⟨none, none, none, none⟩).2 = mathDb) ∧
    (((putLesson mathDb "aaaaaaaaaaaaaaaaaaaaaaaa"
        ⟨some 2, none, none, none⟩).2).lessons =
       mathDb.lessons.map
         (fun l => if l._id == "aaaaaaaaaaaaaaaaaaaaaaaa" then
           applySet ⟨some 2, none, none, none⟩ l else l) ∧
     ((putLesson mathDb "aaaaaaaaaaaaaaaaaaaaaaaa"
        ⟨some 2, none, none, none⟩).2).orders = mathDb.orders) ∧
    (applySet ⟨some 2, none, none, none⟩ mathLesson).subject =
      mathLesson.subject ∧
    (applySet ⟨some 2, none, none, none⟩ mathLesson).spaces = 2 :=
  ⟨(lesson_update_frame_C5 mathDb "aaaaaaaaaaaaaaaaaaaaaaaa"
      ⟨none, none, none, none⟩).1 (by decide),
   (lesson_update_frame_C5 mathDb "aaaaaaaaaaaaaaaaaaaaaaaa"
      ⟨some 2, none, none, none⟩).2.2.1 (by decide) (by decide) (by decide),
   ((lesson_update_frame_C5 mathDb "aaaaaaaaaaaaaaaaaaaaaaaa"
      ⟨some 2, none, none, none⟩).2.2.2 mathLesson).2.2.2.1 rfl,
   (((lesson_update_frame_C5 mathDb "aaaaaaaaaaaaaaaaaaaaaaaa"
      ⟨some 2, none, none, none⟩).2.2.2 mathLesson).2.2.2.2.2.2.1) 2 rfl⟩

/-- Witness for C6: searching the one-lesson database for `"math"` returns
the deduplicated union of the two query results. -/
theorem search_union_dedup_witness_C6 :
    searchLessons mathDb "math" =
      some (.ok (uniqueById
        (mathDb.lessons.filter (textMatches
           [Pat.lit 'm', Pat.lit 'a', Pat.lit 't', Pat.lit 'h']) ++
         mathDb.lessons.filter (numericMatches "math")))) :=
  (search_union_dedup_C6 mathDb "math"
    [Pat.lit 'm', Pat.lit 'a', Pat.lit 't', Pat.lit 'h']
    (by decide) (by decide) (by decide)).1

/-- Witness for C7 (amended): on the non-numeric query `"abc"` against a
database without `-1` fields, the numeric branch is empty and the response
is the text results. -/
theorem numeric_sentinel_amended_witness_C7 :
    mathDb.lessons.filter (numericMatches "abc") = [] ∧
    searchLessons mathDb "abc" =
      some (.ok (mathDb.lessons.filter
        (textMatches [Pat.lit 'a', Pat.lit 'b', Pat.lit 'c']))) :=
  numeric_sentinel_amended_C7 mathDb "abc"
    [Pat.lit 'a', Pat.lit 'b', Pat.lit 'c']
    (by decide) (by decide) (by decide) (by decide) (by decide)

/-- Witness for C8 (amended): on the dot-free query `"ma"`, the text match
coincides with case-insensitive substring containment. -/
theorem text_substring_amended_witness_C8 :
    textMatches [Pat.lit 'm', Pat.lit 'a'] mathLesson = true ↔
      (ciSubstring "ma" mathLesson.subject ∨
       ciSubstring "ma" mathLesson.location) :=
  text_substring_amended_C8 "ma" [Pat.lit 'm', Pat.lit 'a'] mathLesson
    (by decide) (by decide)

/-- Witness for C9: the all-whitespace name `" "` passes the name check and
the request is then rejected on the phone check. -/
theorem whitespace_name_witness_C9 :
    nameRegexTest " " = true ∧
    (postOrders mathDb
      ⟨some " ", some "x", .arr ["aaaaaaaaaaaaaaaaaaaaaaaa"]⟩ 0 "id").1 =
      .badRequest "Phone must contain numbers only" :=
  ⟨(whitespace_name_C9 " " "x" mathDb ["aaaaaaaaaaaaaaaaaaaaaaaa"] 0 "id"
      (by decide) (by decide)).1,
   (whitespace_name_C9 " " "x" mathDb ["aaaaaaaaaaaaaaaaaaaaaaaa"] 0 "id"
      (by decide) (by decide)).2 (by decide) (by decide) (by decide)⟩

/-- Witness for C10: a request with a missing name is rejected and the
database is untouched. -/
theorem no_insert_on_failure_witness_C10 :
    (postOrders mathDb ⟨none, some "123", .arr ["a"]⟩ 0 "id").2 = mathDb :=
  no_insert_on_failure_C10 mathDb ⟨none, some "123", .arr ["a"]⟩ 0 "id"
    (by decide)

end AfterSchool
